import Mathlib

/-!
Verification development for the iframe scanner repository.

The repository drives a live browser (Selenium) from Python.  We embed the
scanner's own control flow and data shapes shallowly in Lean:

* pure Python string manipulation is translated to Lean string functions;
* browser reads (attribute values, the JavaScript structural-XPath walk, the
  content preview, whether a driver call raises) are modelled as fields of the
  input data / oracle functions, universally quantified in the theorems;
* the driver's frame-context stack is modelled as a natural number `ctx`
  (0 = top-level document; `switch_to.frame` is `ctx + 1`;
  `switch_to.parent_frame` is the saturating `ctx - 1`, matching the
  WebDriver rule that `parent_frame` at the top level stays at the top level);
* Python exceptions are modelled by explicit failure flags / `Except`.
-/

namespace IframeScanner

/-- Python truthiness of an optional string argument: `None` and the empty
string are falsy (`if url:` in `scan_page`). -/
def pyTruthy : Option String → Bool
  | none => false
  | some s => !(s == "")

/-- Whitespace characters recognised by Python's argument-less `str.split()`
(ASCII fragment: space, tab, newline, vertical tab, form feed, carriage
return). -/
def isPySpace (c : Char) : Bool :=
  c == ' ' || c == '\t' || c == '\n' || c == '\x0b' || c == '\x0c' || c == '\r'

/-- Helper for `pySplit`: scans the character list, accumulating the current
(reversed) word. -/
def pySplitAux : List Char → List Char → List (List Char)
  | [], acc => if acc.isEmpty then [] else [acc.reverse]
  | c :: cs, acc =>
    if isPySpace c then
      if acc.isEmpty then pySplitAux cs [] else acc.reverse :: pySplitAux cs []
    else pySplitAux cs (c :: acc)

/-- Python `s.split()` (no separator argument): split on runs of whitespace,
discarding empty pieces; `"".split()` and `"  ".split()` are `[]`. -/
def pySplit (s : String) : List String :=
  (pySplitAux s.toList []).map String.mk

/-- ASCII case folding of one character, modelling Python `str.lower` on the
character repertoire the scanner deals with. -/
def pyLowerChar (c : Char) : Char :=
  if 'A' ≤ c && c ≤ 'Z' then Char.ofNat (c.toNat + 32) else c

/-- Python `s.lower()` (modelled on ASCII letters). -/
def pyLower (s : String) : String :=
  String.mk (s.toList.map pyLowerChar)

/-- Python `sep in hay` on character lists: substring containment (the empty
needle is contained in everything, as in Python). -/
def isSubstr (n : List Char) : List Char → Bool
  | [] => n.isEmpty
  | c :: t => n.isPrefixOf (c :: t) || isSubstr n (t)

/-- Substring containment on `String`, Python's `needle in hay`. -/
def strContains (needle hay : String) : Bool :=
  isSubstr needle.toList hay.toList

/-- Helper for `pySplitSep`: split a character list at every occurrence of
`sep`, keeping empty pieces, as Python's one-argument `split` does. -/
def splitSepAux (sep : Char) : List Char → List Char → List (List Char)
  | [], acc => [acc.reverse]
  | c :: cs, acc =>
    if c == sep then acc.reverse :: splitSepAux sep cs []
    else splitSepAux sep cs (c :: acc)

/-- Python `s.split(sep)` for a one-character separator: the result is never
empty (`"".split('/') == ['']`). -/
def pySplitSep (sep : Char) (s : String) : List String :=
  (splitSepAux sep s.toList []).map String.mk

/-- Python `s.split('/')[-1]`: last piece of a split on the slash
separator. -/
def lastSlashSeg (s : String) : String :=
  (pySplitSep '/' s).getLastD ""

/-- Python `s[:20]`: first twenty characters. -/
def take20 (s : String) : String :=
  String.mk (s.toList.take 20)

/-- Python `s[:100]`: first hundred characters (the text-snippet truncation in
`_search_in_current_context`). -/
def take100 (s : String) : String :=
  String.mk (s.toList.take 100)

/-- One search hit, the dictionary appended to `found_elements` in
`_search_in_current_context`. -/
structure MatchRecord where
  location_path : List String
  strategy_used : String
  xpath_used : String
  element_xpath : String
  tag_name : String
  element_text : String
  found_text : String
deriving DecidableEq

/-- One element returned by `find_elements` during a search pass, as the
driver presents it: `tagName` and `textVal` are the reads performed on it,
`xpathRes` is the `_generate_element_xpath` result for it (that helper
catches its own exceptions and always returns a string), and `detailsFail`
records that one of the element reads raised, which the per-element
`except: continue` skips. -/
structure DomElem where
  tagName : String
  textVal : String
  xpathRes : String
  detailsFail : Bool
deriving DecidableEq

/-!
## Data model of the browser-side inputs

A `FrameElem` is one `iframe`/`frame` element as the driver sees it, together
with the oracle outcomes of the driver calls the scanner performs on it:

* `fid`, `fname`, `src`, `title`, `className`: `get_attribute` results
  (absent attributes are the empty string, matching the `or ""` in
  `_extract_iframe_info` and Python truthiness in `_get_frame_identifier`);
* `structXpath`: the result of the JavaScript sibling-index walk in
  `_generate_element_xpath` for an element whose `id` is empty (the script's
  `id` short-circuit is translated explicitly in `genXpath`);
* `xpathFails`: `execute_script` raised, so `_generate_element_xpath`
  falls back to `"//iframe"`;
* `probeFails`: reading `frame.tag_name` raised, so the accessibility probe
  marks the record inaccessible;
* `extractFails` / `extractErr`: the whole of `_extract_iframe_info` raised,
  producing the fallback record of its `except` branch;
* `enterFails` / `enterErr`: `driver.switch_to.frame(frame)` raised;
* `innerIframes`, `innerFrames`, `innerPreview`: the document inside the
  frame — its `iframe`-tagged children, its `frame`-tagged children (each in
  document order, as `find_elements(By.TAG_NAME, ...)` returns them) and the
  `_get_content_preview()` result for it (that helper catches its own
  exceptions and always returns a string).
-/

inductive FrameElem : Type where
  | mk (fid fname src title className structXpath : String)
      (xpathFails probeFails extractFails enterFails : Bool)
      (extractErr enterErr : String)
      (innerIframes innerFrames : List FrameElem)
      (innerPreview : String)

/-- A document as the walker sees it at one context: the `iframe` elements,
the legacy `frame` elements, and its content preview. -/
structure Doc where
  iframes : List FrameElem
  frames : List FrameElem
  preview : String

def FrameElem.fid : FrameElem → String
  | .mk a _ _ _ _ _ _ _ _ _ _ _ _ _ _ => a

def FrameElem.fname : FrameElem → String
  | .mk _ a _ _ _ _ _ _ _ _ _ _ _ _ _ => a

def FrameElem.src : FrameElem → String
  | .mk _ _ a _ _ _ _ _ _ _ _ _ _ _ _ => a

def FrameElem.title : FrameElem → String
  | .mk _ _ _ a _ _ _ _ _ _ _ _ _ _ _ => a

def FrameElem.className : FrameElem → String
  | .mk _ _ _ _ a _ _ _ _ _ _ _ _ _ _ => a

def FrameElem.structXpath : FrameElem → String
  | .mk _ _ _ _ _ a _ _ _ _ _ _ _ _ _ => a

def FrameElem.xpathFails : FrameElem → Bool
  | .mk _ _ _ _ _ _ a _ _ _ _ _ _ _ _ => a

def FrameElem.probeFails : FrameElem → Bool
  | .mk _ _ _ _ _ _ _ a _ _ _ _ _ _ _ => a

def FrameElem.extractFails : FrameElem → Bool
  | .mk _ _ _ _ _ _ _ _ a _ _ _ _ _ _ => a

def FrameElem.enterFails : FrameElem → Bool
  | .mk _ _ _ _ _ _ _ _ _ a _ _ _ _ _ => a

def FrameElem.extractErr : FrameElem → String
  | .mk _ _ _ _ _ _ _ _ _ _ a _ _ _ _ => a

def FrameElem.enterErr : FrameElem → String
  | .mk _ _ _ _ _ _ _ _ _ _ _ a _ _ _ => a

/-- The document inside a frame element. -/
def FrameElem.inner : FrameElem → Doc
  | .mk _ _ _ _ _ _ _ _ _ _ _ _ ii fr pv => ⟨ii, fr, pv⟩

/-- One discovered frame record, the `IframeInfo` dataclass of the scanner. -/
structure IframeInfo where
  index : Nat
  id : String
  name : String
  src : String
  title : String
  class_name : String
  xpath : String
  hierarchy_path : List String
  is_accessible : Bool
  error_message : String
  content_preview : String
  text_found : List MatchRecord
deriving DecidableEq

/-- `_generate_element_xpath`: the injected JavaScript short-circuits on a
non-empty `id`; otherwise it performs the sibling-index walk (modelled by the
`structXpath` oracle field).  A raised `execute_script`, or an empty script
result, falls back to `"//iframe"` (`return xpath or "//iframe"`). -/
def genXpath (e : FrameElem) : String :=
  if e.xpathFails then "//iframe"
  else
    let r := if e.fid ≠ "" then "//*[@id='" ++ e.fid ++ "']" else e.structXpath
    if r = "" then "//iframe" else r

/-- `_get_frame_identifier`: human-readable label for a frame, in priority
order `id`, `name`, truncated trailing segment of `src`, positional
fallback. -/
def getFrameIdentifier (e : FrameElem) (index : Nat) : String :=
  if e.fid ≠ "" then "id='" ++ e.fid ++ "'"
  else if e.fname ≠ "" then "name='" ++ e.fname ++ "'"
  else if e.src ≠ "" then "src='" ++ take20 (lastSlashSeg e.src) ++ "'"
  else "iframe_" ++ toString index

/-- `_extract_iframe_info`: builds the record for one frame element.  If the
extraction itself raises (`extractFails`), the `except` branch returns the
fallback record with empty attributes, hierarchy label `iframe_<index>` and
`is_accessible = False`; otherwise the record carries the attribute values,
the generated XPath, the label from `_get_frame_identifier`, and the
accessibility probe result (reading `frame.tag_name`). -/
def extractIframeInfo (e : FrameElem) (index : Nat) (current_path : List String) :
    IframeInfo :=
  if e.extractFails then
    ⟨index, "", "", "", "", "", "",
      current_path ++ ["iframe_" ++ toString index], false, e.extractErr, "", []⟩
  else
    ⟨index, e.fid, e.fname, e.src, e.title, e.className, genXpath e,
      current_path ++ [getFrameIdentifier e index], !e.probeFails, "", "", []⟩

theorem sizeOf_frameList_append (a b : List FrameElem) :
    sizeOf (a ++ b) + 1 = sizeOf a + sizeOf b := by
  induction a with
  | nil => simp; omega
  | cons x xs ih => simp only [List.cons_append, List.cons.sizeOf_spec]; omega

/-!
## The discovery walker

`discoverDoc d path depth ctx` is `_discover_all_iframes` run at a context
whose document is `d`, with hierarchy path `path`, recursion depth `depth`
and driver frame-context stack height `ctx`.  It returns the records appended
to `self.discovered_iframes` (in append order) and the final stack height.

Control-flow notes, mirroring the source:

* the guard `if depth > 10: return` fires before anything else;
* the element list is `find_elements("iframe") + find_elements("frame")`;
* each record is appended before descent is attempted, and later mutations of
  the same object (`content_preview`, the `except` branch's
  `is_accessible = False` / `error_message`) are reflected in the returned
  record, as the Python list holds the mutated object;
* descent is attempted only when `is_accessible`; inside the `try`, only
  `switch_to.frame` can raise (`_get_content_preview` and the recursive call
  catch their own exceptions), and the `finally` always runs
  `switch_to.parent_frame()` — the saturating `ctx - 1`;
* the nested hierarchy path extends `path` with
  `frame_info.xpath.split('/')[-1]` (line 176), not with the
  `_get_frame_identifier` label.
-/

mutual

def discoverDoc (d : Doc) (current_path : List String) (depth : Nat) (ctx : Nat) :
    List IframeInfo × Nat :=
  if depth > 10 then ([], ctx)
  else discoverFrames (d.iframes ++ d.frames) 0 current_path depth ctx
termination_by sizeOf d
decreasing_by
obtain ⟨ifr, fr, pv⟩ := d
have h := sizeOf_frameList_append ifr fr
simp only [Doc.mk.sizeOf_spec]
omega

def discoverFrames (es : List FrameElem) (i : Nat) (current_path : List String)
    (depth : Nat) (ctx : Nat) : List IframeInfo × Nat :=
  match es with
  | [] => ([], ctx)
  | e :: rest =>
    let info := extractIframeInfo e i current_path
    if info.is_accessible then
      if e.enterFails then
        let info2 := { info with is_accessible := false, error_message := e.enterErr }
        let r := discoverFrames rest (i + 1) current_path depth (ctx - 1)
        (info2 :: r.1, r.2)
      else
        let info2 := { info with content_preview := e.inner.preview }
        let sub := discoverDoc e.inner (current_path ++ [lastSlashSeg info.xpath])
          (depth + 1) (ctx + 1)
        let r := discoverFrames rest (i + 1) current_path depth (sub.2 - 1)
        (info2 :: sub.1 ++ r.1, r.2)
    else
      let r := discoverFrames rest (i + 1) current_path depth ctx
      (info :: r.1, r.2)
termination_by sizeOf es
decreasing_by
all_goals
  first
  | (simp only [List.cons.sizeOf_spec]; omega)
  | (cases e with
     | mk f1 f2 f3 f4 f5 f6 b1 b2 b3 b4 s1 s2 ii fr pv =>
       simp only [FrameElem.inner, Doc.mk.sizeOf_spec, FrameElem.mk.sizeOf_spec,
         List.cons.sizeOf_spec]
       omega)

end

/-!
## The text search engine (`_search_in_current_context`)

The six structural queries are fixed strings built from the search text; the
browser's `find_elements(By.XPATH, ...)` is an oracle `find` mapping the
(zero-based) strategy index and the query string to either an exception
(`Except.error`) or a list of elements.
-/

/-- Python `search_text.split()[0] if search_text.split() else search_text`:
the first whitespace-delimited token, or the query itself when splitting
yields nothing. -/
def firstTokenOrSelf (s : String) : String :=
  match pySplit s with
  | [] => s
  | w :: _ => w

/-- The `search_strategies` list, in source order: exact text, full-query
containment, first-token containment, case-insensitive containment (the
lowercase translation of the query is baked into the query string), attribute
containment, and full descendant-text containment. -/
def searchStrategies (search_text : String) : List String :=
  [ "//*[text()='" ++ search_text ++ "']",
    "//*[contains(text(), '" ++ search_text ++ "')]",
    "//*[contains(text(), '" ++ firstTokenOrSelf search_text ++ "')]",
    "//*[contains(translate(text(), 'ABCDEFGHIJKLMNOPQRSTUVWXYZ', 'abcdefghijklmnopqrstuvwxyz'), '"
      ++ pyLower search_text ++ "')]",
    "//*[@title[contains(., '" ++ search_text ++ "')] or @alt[contains(., '" ++ search_text
      ++ "')] or @placeholder[contains(., '" ++ search_text ++ "')]]",
    "//*[contains(., '" ++ search_text ++ "')]" ]

/-- The inner loop of `_search_in_current_context` over the elements one
strategy returned: skip an element whose reads raised, skip an element whose
locator is already recorded, otherwise append a new `MatchRecord`. -/
def processElems (search_text : String) (location_path : List String) (i : Nat)
    (xq : String) : List DomElem → List MatchRecord → List MatchRecord
  | [], found => found
  | e :: rest, found =>
    if e.detailsFail then processElems search_text location_path i xq rest found
    else
      if found.any (fun m => m.element_xpath == e.xpathRes) then
        processElems search_text location_path i xq rest found
      else
        processElems search_text location_path i xq rest
          (found ++ [⟨location_path, "Strategy " ++ toString (i + 1), xq, e.xpathRes,
            e.tagName, take100 e.textVal, search_text⟩])

/-- The outer loop of `_search_in_current_context` over the enumerated
strategies: a strategy whose `find_elements` raised is skipped
(`except: continue`), the rest still run. -/
def searchLoop (search_text : String) (location_path : List String)
    (find : Nat → String → Except Unit (List DomElem)) :
    List (Nat × String) → List MatchRecord → List MatchRecord
  | [], found => found
  | (i, xq) :: rest, found =>
    match find i xq with
    | .error _ => searchLoop search_text location_path find rest found
    | .ok es => searchLoop search_text location_path find rest
        (processElems search_text location_path i xq es found)

/-- `_search_in_current_context`: run all strategies in order, starting from
an empty `found_elements` list. -/
def searchInCurrentContext (search_text : String) (location_path : List String)
    (find : Nat → String → Except Unit (List DomElem)) : List MatchRecord :=
  searchLoop search_text location_path find (searchStrategies search_text).enum []

/-!
## The report generator (`_generate_report`)
-/

/-- The `scan_summary` block of the report. -/
structure ScanSummary where
  total_iframes_found : Nat
  accessible_iframes : Nat
  inaccessible_iframes : Nat
deriving DecidableEq

/-- One entry of `iframe_details`. -/
structure IframeDetail where
  hierarchy_path : String
  id : String
  name : String
  src : String
  title : String
  className : String
  xpath : String
  is_accessible : Bool
  error_message : String
  content_preview : String
  text_found_count : Nat
deriving DecidableEq

/-- The `self.search_results` aggregate built by `_search_text_everywhere`. -/
structure SearchResults where
  search_text : String
  total_locations_found : Nat
  locations : List MatchRecord

/-- The dictionary returned by `_generate_report`. -/
structure ScanReport where
  scan_summary : ScanSummary
  iframe_details : List IframeDetail
  search_results : Option SearchResults

/-- `_generate_report`: summary counts over the inventory, one flattened
detail per record (`' → '.join` of the hierarchy path, attribute fields,
`len(text_found)`), and the search aggregate only when a search text was
supplied (`self.search_results if search_text else None`). -/
def generateReport (discovered : List IframeInfo) (search_text : Option String)
    (results : SearchResults) : ScanReport :=
  { scan_summary :=
      ⟨discovered.length,
        (discovered.filter (fun f => f.is_accessible)).length,
        (discovered.filter (fun f => !f.is_accessible)).length⟩,
    iframe_details := discovered.map (fun f =>
      ⟨String.intercalate " → " f.hierarchy_path, f.id, f.name, f.src, f.title,
        f.class_name, f.xpath, f.is_accessible, f.error_message, f.content_preview,
        f.text_found.length⟩),
    search_results := if pyTruthy search_text then some results else none }

/-!
## The `scan_page` entry point, at trace granularity

For the fail-fast claim we model `scan_page` as the sequence of driver
interactions it performs plus its outcome.  The body's `try` dispatches on
Python truthiness of `url`, then of `html_source`; with neither it raises
`ValueError` immediately — before any page load, discovery or search — and
the `except` re-raises it.  The `finally` always runs
`_return_to_main_context`, whose `switch_to.default_content` swallows its own
failures; that cleanup reset is the single trailing `returnToMain` action of
every trace.  Report generation is pure and is not a driver interaction.
-/

inductive BrowserAction : Type where
  | loadUrl (u : String)
  | loadHtml (h : String)
  | discoverAll
  | searchEverywhere (t : String)
  | returnToMain
deriving DecidableEq

inductive ScanError : Type where
  | invalidInput
deriving DecidableEq

/-- `scan_page(url, html_source, search_text)`: outcome and driver-interaction
trace. -/
def scan_page (url html_source search_text : Option String) :
    Except ScanError Unit × List BrowserAction :=
  if pyTruthy url then
    (.ok (), [.loadUrl (url.getD ""), .discoverAll]
      ++ (if pyTruthy search_text then [.searchEverywhere (search_text.getD "")] else [])
      ++ [.returnToMain])
  else if pyTruthy html_source then
    (.ok (), [.loadHtml (html_source.getD ""), .discoverAll]
      ++ (if pyTruthy search_text then [.searchEverywhere (search_text.getD "")] else [])
      ++ [.returnToMain])
  else
    (.error .invalidInput, [.returnToMain])

/-!
## The DOM-only fallback (`dom_scanner.find_iframe_xpaths_in_dom`)

We model the BeautifulSoup parse tree directly: a `BNode` is one parsed
element with its tag, attribute list (in document order; values as strings)
and element children.  The soup object itself has name `"[document]"` and no
parent, so `_compute_xpath` always terminates with a leading `/[document]`
segment; below it, each segment is the tag name, with a 1-based index among
same-tag siblings appended exactly when the parent has more than one child of
that tag.  Parsing an `srcdoc` attribute and flattening it to text
(`BeautifulSoup(srcdoc).get_text(separator=' ')`, guarded by
`try/except`) is a library call, modelled by the oracle `parseGetText`.
-/

inductive BNode : Type where
  | mk (tag : String) (attrs : List (String × String)) (children : List BNode)

def BNode.tag : BNode → String
  | .mk t _ _ => t

def BNode.attrs : BNode → List (String × String)
  | .mk _ a _ => a

def BNode.children : BNode → List BNode
  | .mk _ _ c => c

/-- The path segment `_compute_xpath` produces for the element at position
`pos` of `siblings`: `/tag` when it is the only child with that tag, else
`/tag[index]` with the 1-based index among same-tag siblings. -/
def xpathSeg (siblings : List BNode) (tag : String) (pos : Nat) : String :=
  if (siblings.filter (fun n => n.tag == tag)).length == 1 then "/" ++ tag
  else "/" ++ tag ++ "[" ++
    toString (1 + ((siblings.take pos).filter (fun n => n.tag == tag)).length) ++ "]"

/-- Document-order (preorder) traversal computing, for every element, its
`_compute_xpath` path, and keeping the frame-like ones — the combination of
`soup.find_all(['iframe', 'frame'])` with `_compute_xpath` per hit.
`siblings` is the full child list of the current parent, `todo` its tail from
position `pos`, and `pre` the path of the parent. -/
def collectFrames (pre : String) (siblings : List BNode) (pos : Nat) :
    List BNode → List (String × BNode)
  | [] => []
  | n :: rest =>
    let xp := pre ++ xpathSeg siblings n.tag pos
    (if n.tag == "iframe" || n.tag == "frame" then [(xp, n)] else [])
      ++ collectFrames xp n.children 0 n.children
      ++ collectFrames pre siblings (pos + 1) rest
termination_by todo => sizeOf todo
decreasing_by
all_goals simp only [List.cons.sizeOf_spec]
· cases n with
  | mk t a c => simp only [BNode.children, BNode.mk.sizeOf_spec]; omega
· omega

/-- Python `' '.join(...)`. -/
def joinSpace (l : List String) : String := String.intercalate " " l

/-- BeautifulSoup's `tag.get(key)`: the attribute value, if present. -/
def lookupAttr (attrs : List (String × String)) (key : String) : Option String :=
  (attrs.find? (fun kv => kv.1 == key)).map (fun kv => kv.2)

/-- `find_iframe_xpaths_in_dom`: for every frame-like element of the parsed
document (whose children are `docChildren`), report `_compute_xpath` of it
when the lowercased search text occurs in the lowercased join of its
attribute values, or failing that in the lowercased flattened text of its
non-empty `srcdoc` attribute (`if not hit and srcdoc:`; a parse failure is
swallowed and counts as no hit). -/
def find_iframe_xpaths_in_dom (docChildren : List BNode) (search_text : String)
    (parseGetText : String → Except Unit String) : List String :=
  let search_lower := pyLower search_text
  (collectFrames "/[document]" docChildren 0 docChildren).filterMap (fun fr =>
    let attrs_text := joinSpace (fr.2.attrs.map (fun kv => kv.2))
    let hit :=
      if strContains search_lower (pyLower attrs_text) then true
      else
        match lookupAttr fr.2.attrs "srcdoc" with
        | none => false
        | some sd =>
          if sd == "" then false
          else
            match parseGetText sd with
            | .error _ => false
            | .ok innerTxt => strContains search_lower (pyLower innerTxt)
    if hit then some fr.1 else none)

/-!
## Concrete documents used by counterexamples and witnesses
-/

/-- An accessible frame element with every attribute empty and no driver
failures, wrapping the given inner document. -/
def plainElem (inner : Doc) : FrameElem :=
  .mk "" "" "" "" "" "" false false false false "" "" inner.iframes inner.frames inner.preview

/-- A document with no frame-like elements. -/
def emptyDoc : Doc := ⟨[], [], ""⟩

/-- A document holding a single chain of nested accessible iframes of the
given length. -/
def chainDoc : Nat → Doc
  | 0 => emptyDoc
  | n + 1 => ⟨[plainElem (chainDoc n)], [], ""⟩

/-- An accessible iframe with a non-empty `name` attribute, an empty `id`,
a structural XPath from the sibling walk, and one nested plain iframe. -/
def c3outer : FrameElem :=
  .mk "" "nav" "" "" "" "/html/body/iframe[1]" false false false false "" ""
    [plainElem emptyDoc] [] ""

/-- The document containing `c3outer` at the top level. -/
def c3doc : Doc := ⟨[c3outer], [], ""⟩

/-!
## Invariants of the discovery walker
-/

theorem extract_hierarchy (e : FrameElem) (i : Nat) (p : List String) :
    (extractIframeInfo e i p).hierarchy_path
      = p ++ [if e.extractFails then "iframe_" ++ toString i else getFrameIdentifier e i] := by
  by_cases h : e.extractFails = true <;> simp [extractIframeInfo, h]

theorem discoverDoc_depth_gt {depth : Nat} (h : 10 < depth) (d : Doc)
    (p : List String) (c : Nat) : discoverDoc d p depth c = ([], c) := by
  rw [discoverDoc]
  simp [h]

theorem sizeOf_doc_pos (d : Doc) : 1 ≤ sizeOf d := by
  cases d; simp only [Doc.mk.sizeOf_spec]; omega

theorem sizeOf_frameList_pos (es : List FrameElem) : 1 ≤ sizeOf es := by
  cases es <;> simp only [List.nil.sizeOf_spec, List.cons.sizeOf_spec] <;> omega

theorem sizeOf_inner_le (e : FrameElem) : sizeOf e.inner ≤ sizeOf e := by
  cases e with
  | mk f1 f2 f3 f4 f5 f6 b1 b2 b3 b4 s1 s2 ii fr pv =>
    simp only [FrameElem.inner, Doc.mk.sizeOf_spec, FrameElem.mk.sizeOf_spec]
    omega

/-- Every record discovered at hierarchy path `p` and depth `k` has a path
that extends `p` by at least one and at most `11 - k` labels (the depth guard
`if depth > 10: return` stops enumeration). -/
theorem discover_paths_aux : ∀ N : Nat,
    (∀ d : Doc, sizeOf d ≤ N → ∀ p k c, ∀ r ∈ (discoverDoc d p k c).1,
      r.hierarchy_path.length ≤ p.length + 1 + (10 - k) ∧ p <+: r.hierarchy_path) ∧
    (∀ es : List FrameElem, sizeOf es ≤ N → ∀ i p k c,
      ∀ r ∈ (discoverFrames es i p k c).1,
      r.hierarchy_path.length ≤ p.length + 1 + (10 - k) ∧ p <+: r.hierarchy_path) := by
  intro N
  induction N with
  | zero =>
    constructor
    · intro d hd
      exact absurd hd (by have := sizeOf_doc_pos d; omega)
    · intro es hes
      exact absurd hes (by have := sizeOf_frameList_pos es; omega)
  | succ N ih =>
    obtain ⟨ihD, ihF⟩ := ih
    constructor
    · intro d hd p k c r hr
      rw [discoverDoc] at hr
      by_cases hk : k > 10
      · simp [hk] at hr
      · simp only [if_neg hk] at hr
        refine ihF _ ?_ 0 p k c r hr
        obtain ⟨ifr, fr, pv⟩ := d
        have := sizeOf_frameList_append ifr fr
        simp only [Doc.mk.sizeOf_spec] at hd
        simp only
        omega
    · intro es hes i p k c r hr
      cases es with
      | nil =>
        rw [discoverFrames] at hr
        exact absurd hr (by simp)
      | cons e rest =>
        have hrest : sizeOf rest ≤ N := by
          simp only [List.cons.sizeOf_spec] at hes
          have := sizeOf_frameList_pos rest
          have : 1 ≤ sizeOf e := by cases e; simp only [FrameElem.mk.sizeOf_spec]; omega
          omega
        have hinner : sizeOf e.inner ≤ N := by
          simp only [List.cons.sizeOf_spec] at hes
          have h1 := sizeOf_inner_le e
          have h2 := sizeOf_frameList_pos rest
          omega
        have hhead : ∀ q : IframeInfo,
            q.hierarchy_path = (extractIframeInfo e i p).hierarchy_path →
            q.hierarchy_path.length ≤ p.length + 1 + (10 - k) ∧ p <+: q.hierarchy_path := by
          intro q hq
          rw [hq, extract_hierarchy]
          constructor
          · simp only [List.length_append, List.length_cons, List.length_nil]
            omega
          · exact List.prefix_append p _
        rw [discoverFrames] at hr
        by_cases hacc : (extractIframeInfo e i p).is_accessible = true
        · by_cases hent : e.enterFails = true
          · simp only [if_pos hacc, if_pos hent] at hr
            rcases List.mem_cons.mp hr with h1 | h2
            · exact hhead r (by rw [h1])
            · exact ihF rest hrest (i + 1) p k _ r h2
          · simp only [if_pos hacc, if_neg hent] at hr
            rcases List.mem_cons.mp hr with h1 | h2
            · exact hhead r (by rw [h1])
            · rcases List.mem_append.mp h2 with h3 | h4
              · by_cases hk : k + 1 > 10
                · rw [discoverDoc_depth_gt hk] at h3
                  exact absurd h3 (by simp)
                · obtain ⟨hlen, hpre⟩ := ihD e.inner hinner _ (k + 1) (c + 1) r h3
                  constructor
                  · simp only [List.length_append, List.length_cons,
                      List.length_nil] at hlen
                    omega
                  · exact (List.prefix_append p _).trans hpre
              · exact ihF rest hrest (i + 1) p k _ r h4
        · simp only [if_neg hacc] at hr
          rcases List.mem_cons.mp hr with h1 | h2
          · exact hhead r (by rw [h1])
          · exact ihF rest hrest (i + 1) p k c r h2

/-- Instantiated form: the hierarchy path of every discovered record extends
the starting path, and its length is bounded by the depth guard. -/
theorem discover_path_bound (d : Doc) (p : List String) (k c : Nat)
    (r : IframeInfo) (hr : r ∈ (discoverDoc d p k c).1) :
    r.hierarchy_path.length ≤ p.length + 1 + (10 - k) ∧ p <+: r.hierarchy_path :=
  (discover_paths_aux (sizeOf d)).1 d le_rfl p k c r hr

/-- The walker only ever lowers the frame-context stack: entering a frame
pushes one level, and the `finally` of every iteration pops one (saturating
at the top level, as `switch_to.parent_frame` does). -/
theorem discover_ctx_aux : ∀ N : Nat,
    (∀ d : Doc, sizeOf d ≤ N → ∀ p k c, (discoverDoc d p k c).2 ≤ c) ∧
    (∀ es : List FrameElem, sizeOf es ≤ N → ∀ i p k c,
      (discoverFrames es i p k c).2 ≤ c) := by
  intro N
  induction N with
  | zero =>
    constructor
    · intro d hd
      exact absurd hd (by have := sizeOf_doc_pos d; omega)
    · intro es hes
      exact absurd hes (by have := sizeOf_frameList_pos es; omega)
  | succ N ih =>
    obtain ⟨ihD, ihF⟩ := ih
    constructor
    · intro d hd p k c
      rw [discoverDoc]
      by_cases hk : k > 10
      · simp [hk]
      · simp only [if_neg hk]
        refine ihF _ ?_ 0 p k c
        obtain ⟨ifr, fr, pv⟩ := d
        have := sizeOf_frameList_append ifr fr
        simp only [Doc.mk.sizeOf_spec] at hd
        simp only
        omega
    · intro es hes i p k c
      cases es with
      | nil => rw [discoverFrames]
      | cons e rest =>
        have hrest : sizeOf rest ≤ N := by
          simp only [List.cons.sizeOf_spec] at hes
          have : 1 ≤ sizeOf e := by cases e; simp only [FrameElem.mk.sizeOf_spec]; omega
          omega
        have hinner : sizeOf e.inner ≤ N := by
          simp only [List.cons.sizeOf_spec] at hes
          have h1 := sizeOf_inner_le e
          have h2 := sizeOf_frameList_pos rest
          omega
        rw [discoverFrames]
        by_cases hacc : (extractIframeInfo e i p).is_accessible = true
        · by_cases hent : e.enterFails = true
          · simp only [if_pos hacc, if_pos hent]
            have := ihF rest hrest (i + 1) p k (c - 1)
            omega
          · simp only [if_pos hacc, if_neg hent]
            have h1 := ihD e.inner hinner
              (p ++ [lastSlashSeg (extractIframeInfo e i p).xpath]) (k + 1) (c + 1)
            have h2 := ihF rest hrest (i + 1) p k
              ((discoverDoc e.inner (p ++ [lastSlashSeg (extractIframeInfo e i p).xpath])
                (k + 1) (c + 1)).2 - 1)
            omega
        · simp only [if_neg hacc]
          exact ihF rest hrest (i + 1) p k c

/-- One unfolding step of the walker loop for an accessible frame whose
extraction succeeds and whose entry does not raise. -/
theorem discoverFrames_cons_enter (e : FrameElem) (es : List FrameElem) (i : Nat)
    (p : List String) (k c : Nat) (hx : e.extractFails = false)
    (hp : e.probeFails = false) (hent : e.enterFails = false) :
    discoverFrames (e :: es) i p k c
      = ({ extractIframeInfo e i p with content_preview := e.inner.preview }
          :: (discoverDoc e.inner (p ++ [lastSlashSeg (genXpath e)]) (k + 1) (c + 1)).1
          ++ (discoverFrames es (i + 1) p k
              ((discoverDoc e.inner (p ++ [lastSlashSeg (genXpath e)]) (k + 1) (c + 1)).2
                - 1)).1,
        (discoverFrames es (i + 1) p k
          ((discoverDoc e.inner (p ++ [lastSlashSeg (genXpath e)]) (k + 1) (c + 1)).2
            - 1)).2) := by
  have hacc : (extractIframeInfo e i p).is_accessible = true := by
    simp [extractIframeInfo, hx, hp]
  have hxp : (extractIframeInfo e i p).xpath = genXpath e := by
    simp [extractIframeInfo, hx]
  rw [discoverFrames]
  simp only [hacc, if_true, hent, Bool.false_eq_true, if_false, hxp]

/-- In a chain of `n` nested accessible iframes scanned from depth `k` with
`k + n` at most 11, some record's hierarchy path gains `n` labels over the
starting path: the deepest frame of the chain is recorded. -/
theorem chainDoc_deep_record : ∀ (n : Nat), 1 ≤ n →
    ∀ (p : List String) (k c : Nat), k + n ≤ 11 →
    ∃ r ∈ (discoverDoc (chainDoc n) p k c).1,
      r.hierarchy_path.length = p.length + n := by
  intro n
  induction n with
  | zero => intro h; omega
  | succ m ih =>
    intro _ p k c hkn
    have hk : ¬k > 10 := by omega
    rw [discoverDoc]
    simp only [if_neg hk]
    show ∃ r ∈ (discoverFrames
      ((chainDoc (m + 1)).iframes ++ (chainDoc (m + 1)).frames) 0 p k c).1, _
    have hch : (chainDoc (m + 1)).iframes ++ (chainDoc (m + 1)).frames
        = [plainElem (chainDoc m)] := by
      simp [chainDoc]
    rw [hch, discoverFrames_cons_enter (plainElem (chainDoc m)) [] 0 p k c rfl rfl rfl]
    by_cases hm : 1 ≤ m
    · obtain ⟨r, hr, hlen⟩ := ih hm (p ++ [lastSlashSeg (genXpath (plainElem (chainDoc m)))])
        (k + 1) (c + 1) (by omega)
      refine ⟨r, List.mem_cons_of_mem _ (List.mem_append_left _ ?_), ?_⟩
      · have : (plainElem (chainDoc m)).inner = chainDoc m := by
          cases hcm : chainDoc m
          simp [plainElem, FrameElem.inner, Doc.iframes, Doc.frames, Doc.preview]
        rw [this]
        exact hr
      · rw [hlen]
        simp only [List.length_append, List.length_cons, List.length_nil]
        omega
    · have hm0 : m = 0 := by omega
      subst hm0
      refine ⟨_, List.mem_cons_self _ _, ?_⟩
      show (extractIframeInfo (plainElem (chainDoc 0)) 0 p).hierarchy_path.length
        = p.length + 1
      rw [extract_hierarchy]
      simp [plainElem, FrameElem.extractFails]

/-- C1 (counterexample): the depth guard is `if depth > 10: return`, and a
frame nested 11 levels deep is enumerated by the recursive call running at
depth 10, which passes the guard.  In a document with an accessible chain of
11 nested iframes, the inventory contains a record whose hierarchy path has
12 labels — by the spec's own `hierarchyPath length = depth + 1` convention a
frame at nesting level 11, beyond the claimed ceiling of 10, and in
particular the 11th-level frame is not absent. -/
theorem C1_counterexample :
    ∃ r ∈ (discoverDoc (chainDoc 11) ["main_page"] 0 0).1,
      r.hierarchy_path.length = 12 := by
  have h := chainDoc_deep_record 11 (by omega) ["main_page"] 0 0 (by omega)
  simpa using h

/-- C1 (amended): for every scanned document, every record of the inventory
has a hierarchy path of at most 12 labels, i.e. lies at nesting level at most
11 — the deepest level the `depth > 10` guard lets through.  Consequently a
frame nested 12 levels deep is absent from the inventory. -/
theorem C1_depth_ceiling (d : Doc) (c : Nat) (r : IframeInfo)
    (hr : r ∈ (discoverDoc d ["main_page"] 0 c).1) :
    r.hierarchy_path.length ≤ 12 := by
  have h := (discover_path_bound d ["main_page"] 0 c r hr).1
  simp only [List.length_cons, List.length_nil] at h
  omega

/-- Witness for `C1_depth_ceiling` at a one-frame document. -/
theorem C1_depth_ceiling_witness :
    (⟨0, "", "", "", "", "", "//iframe", ["main_page", "iframe_0"], true, "", "", []⟩
      : IframeInfo).hierarchy_path.length ≤ 12 := by
  refine C1_depth_ceiling (chainDoc 1) 0 _ ?_
  simp [chainDoc, plainElem, emptyDoc, discoverDoc, discoverFrames, extractIframeInfo,
    getFrameIdentifier, genXpath, lastSlashSeg, FrameElem.inner, FrameElem.fid,
    FrameElem.fname, FrameElem.src, FrameElem.title, FrameElem.className,
    FrameElem.structXpath, FrameElem.xpathFails, FrameElem.probeFails,
    FrameElem.extractFails, FrameElem.enterFails, FrameElem.extractErr,
    FrameElem.enterErr, take20]
  all_goals decide

/-- C2: a full discovery pass started at the top-level document (context
stack height 0, depth 0) always ends with the driver back at the top-level
document: every `switch_to.frame` push is matched by the `finally` branch's
`switch_to.parent_frame` pop, and the pop saturates at the top level, so the
final stack height is exactly 0 whatever the document and whatever driver
calls fail. -/
theorem C2_enter_return_balance (d : Doc) (p : List String) :
    (discoverDoc d p 0 0).2 = 0 :=
  Nat.le_zero.mp ((discover_ctx_aux (sizeOf d)).1 d le_rfl p 0 0)

/-- C3 (counterexample): a frame with an empty `id` and the non-empty `name`
attribute `nav` gets the priority-derived label `name='nav'` as its own final
hierarchy label, but the label it contributes to its descendants' paths is
`iframe[1]` — the trailing segment of its structural XPath
(`frame_info.xpath.split('/')[-1]`, line 176) — which is not derived from the
id/name/src/index priority order (it differs from the priority label even
though `name` is non-empty). -/
theorem C3_counterexample :
    ((discoverDoc c3doc ["main_page"] 0 0).1.map (fun r => r.hierarchy_path))
        = [["main_page", "name='nav'"], ["main_page", "iframe[1]", "iframe_0"]] ∧
      getFrameIdentifier c3outer 0 = "name='nav'" ∧
      ("iframe[1]" : String) ≠ "name='nav'" := by
  refine ⟨?_, by decide, by decide⟩
  simp [c3doc, c3outer, plainElem, emptyDoc, discoverDoc, discoverFrames,
    extractIframeInfo, getFrameIdentifier, genXpath, lastSlashSeg, FrameElem.inner,
    FrameElem.fid, FrameElem.fname, FrameElem.src, FrameElem.title,
    FrameElem.className, FrameElem.structXpath, FrameElem.xpathFails,
    FrameElem.probeFails, FrameElem.extractFails, FrameElem.enterFails,
    FrameElem.extractErr, FrameElem.enterErr, take20]
  all_goals decide

/-- C3 (amended): for a frame whose record extraction succeeds, the frame's
own final hierarchy label is `_get_frame_identifier` — the id/name/src/index
priority — while the label its segment contributes to every descendant's path
is the trailing `/`-segment of its generated XPath locator; each descendant's
path extends the parent path followed by that xpath segment, and (when the
frame is accessible and entering it succeeds) those descendant records do
appear in the inventory produced for the sibling list. -/
theorem C3_label_sources (e : FrameElem) (es : List FrameElem) (i : Nat)
    (p : List String) (k c : Nat) (hx : e.extractFails = false) :
    ((discoverFrames (e :: es) i p k c).1.head?.map (fun r => r.hierarchy_path))
        = some (p ++ [getFrameIdentifier e i]) ∧
      (∀ r ∈ (discoverDoc e.inner (p ++ [lastSlashSeg (genXpath e)]) (k + 1) (c + 1)).1,
        (p ++ [lastSlashSeg (genXpath e)]) <+: r.hierarchy_path ∧
          (e.probeFails = false → e.enterFails = false →
            r ∈ (discoverFrames (e :: es) i p k c).1)) := by
  have hpath : (extractIframeInfo e i p).hierarchy_path = p ++ [getFrameIdentifier e i] := by
    rw [extract_hierarchy]
    simp [hx]
  have hxp : (extractIframeInfo e i p).xpath = genXpath e := by
    simp [extractIframeInfo, hx]
  constructor
  · rw [discoverFrames]
    by_cases hacc : (extractIframeInfo e i p).is_accessible = true
    · by_cases hent : e.enterFails = true
      · simp [if_pos hacc, if_pos hent, hpath]
      · simp [if_pos hacc, if_neg hent, hpath]
    · simp [if_neg hacc, hpath]
  · intro r hr
    constructor
    · exact (discover_path_bound e.inner _ (k + 1) (c + 1) r hr).2
    · intro hp hent
      have hacc : (extractIframeInfo e i p).is_accessible = true := by
        simp [extractIframeInfo, hx, hp]
      rw [discoverFrames]
      simp only [if_pos hacc, if_neg (by simp [hent] : ¬e.enterFails = true)]
      rw [hxp]
      exact List.mem_cons_of_mem _ (List.mem_append_left _ hr)

/-- Witness for `C3_label_sources`: the frame named `nav` gets the priority
label as its own final hierarchy label. -/
theorem C3_label_sources_witness :
    ((discoverFrames [c3outer] 0 ["main_page"] 0 0).1.head?.map
        (fun r => r.hierarchy_path))
      = some ["main_page", "name='nav'"] := by
  have h := (C3_label_sources c3outer [] 0 ["main_page"] 0 0 rfl).1
  simpa [getFrameIdentifier, c3outer, FrameElem.fid, FrameElem.fname, FrameElem.src,
    take20, lastSlashSeg] using h

/-!
## Properties of the search pass
-/

theorem processElems_pairwise (t : String) (p : List String) (i : Nat) (xq : String) :
    ∀ (es : List DomElem) (found : List MatchRecord),
    found.Pairwise (fun a b => a.element_xpath ≠ b.element_xpath) →
    (processElems t p i xq es found).Pairwise
      (fun a b => a.element_xpath ≠ b.element_xpath) := by
  intro es
  induction es with
  | nil =>
    intro found h
    simpa [processElems] using h
  | cons e rest ih =>
    intro found h
    rw [processElems]
    by_cases hd : e.detailsFail = true
    · simp only [if_pos hd]
      exact ih found h
    · simp only [if_neg hd]
      by_cases ha : found.any (fun m => m.element_xpath == e.xpathRes) = true
      · simp only [if_pos ha]
        exact ih found h
      · simp only [if_neg ha]
        refine ih _ ?_
        rw [List.pairwise_append]
        refine ⟨h, List.pairwise_singleton _ _, ?_⟩
        intro a ha' b hb
        rw [List.mem_singleton] at hb
        subst hb
        simp only
        intro hEq
        exact ha (List.any_eq_true.mpr ⟨a, ha', by simp [hEq]⟩)

theorem searchLoop_pairwise (t : String) (p : List String)
    (find : Nat → String → Except Unit (List DomElem)) :
    ∀ (l : List (Nat × String)) (found : List MatchRecord),
    found.Pairwise (fun a b => a.element_xpath ≠ b.element_xpath) →
    (searchLoop t p find l found).Pairwise
      (fun a b => a.element_xpath ≠ b.element_xpath) := by
  intro l
  induction l with
  | nil =>
    intro found h
    simpa [searchLoop] using h
  | cons iq rest ih =>
    intro found h
    obtain ⟨i, xq⟩ := iq
    rw [searchLoop]
    cases hfind : find i xq with
    | error u => exact ih found h
    | ok es => exact ih _ (processElems_pairwise t p i xq es found h)

/-- C4: within one search pass over one context, no two returned
`MatchRecord`s carry the same element locator — the `already_found` check
deduplicates by `element_xpath` before every append. -/
theorem C4_dedup_per_pass (t : String) (p : List String)
    (find : Nat → String → Except Unit (List DomElem)) :
    (searchInCurrentContext t p find).Pairwise
      (fun a b => a.element_xpath ≠ b.element_xpath) :=
  searchLoop_pairwise t p find (searchStrategies t).enum [] List.Pairwise.nil

/-- C5 (counterexample): the query `"hi "` consists of a single
whitespace-delimited token (`"hi ".split()` has length one), yet strategy 3's
query string (built from `split()[0]`, which strips the trailing blank)
differs from strategy 2's (built from the query verbatim). -/
theorem C5_counterexample :
    (pySplit "hi ").length = 1 ∧
      (searchStrategies "hi ")[2]? ≠ (searchStrategies "hi ")[1]? := by
  decide

theorem pySplitAux_nospace :
    ∀ (l acc : List Char), (∀ c ∈ l, isPySpace c = false) →
    pySplitAux l acc = if (acc.reverse ++ l).isEmpty then [] else [acc.reverse ++ l] := by
  intro l
  induction l with
  | nil =>
    intro acc _
    cases acc <;> simp [pySplitAux]
  | cons c cs ih =>
    intro acc h
    have hc : isPySpace c = false := h c (List.mem_cons_self _ _)
    rw [pySplitAux]
    simp only [hc, Bool.false_eq_true, if_false]
    rw [ih (c :: acc) (fun x hx => h x (List.mem_cons_of_mem _ hx))]
    simp [List.append_assoc]

theorem firstTokenOrSelf_nospace (t : String)
    (h : ∀ c ∈ t.toList, isPySpace c = false) : firstTokenOrSelf t = t := by
  unfold firstTokenOrSelf pySplit
  rw [pySplitAux_nospace _ [] h]
  cases ht : t.toList with
  | nil =>
    simp only [List.reverse_nil, List.nil_append, ht, List.isEmpty_nil, if_true,
      List.map_nil]
  | cons c cs =>
    have hmk : String.mk t.toList = t := rfl
    rw [ht] at hmk
    simp [ht, hmk]

/-- C5 (amended): for every query string containing no whitespace character
(so that it coincides with its own first token; a query with leading or
trailing whitespace around a single token does not), the structural query of
strategy 3 is identical to that of strategy 2. -/
theorem C5_single_token (t : String)
    (h : ∀ c ∈ t.toList, isPySpace c = false) :
    (searchStrategies t)[2]? = (searchStrategies t)[1]? := by
  simp [searchStrategies, firstTokenOrSelf_nospace t h]

/-- Witness for `C5_single_token` at the one-token query `hello`. -/
theorem C5_single_token_witness :
    (searchStrategies "hello")[2]? = (searchStrategies "hello")[1]? :=
  C5_single_token "hello" (by decide)

/-- C6: `scan_page` called with neither a URL nor an HTML source (both
absent or empty, i.e. Python-falsy) raises `ValueError` before any page
load, discovery or search; the trace holds only the single
exception-swallowed cleanup reset performed by the `finally` block after
the failure. -/
theorem C6_invalid_input (url html_source search_text : Option String)
    (hu : pyTruthy url = false) (hh : pyTruthy html_source = false) :
    scan_page url html_source search_text
      = (Except.error ScanError.invalidInput, [BrowserAction.returnToMain]) := by
  simp [scan_page, hu, hh]

/-- Witness for `C6_invalid_input` with both inputs absent. -/
theorem C6_invalid_input_witness :
    scan_page none none none
      = (Except.error ScanError.invalidInput, [BrowserAction.returnToMain]) :=
  C6_invalid_input none none none rfl rfl

theorem processElems_filter (t : String) (p : List String) (i : Nat) (xq : String) :
    ∀ (es : List DomElem) (found : List MatchRecord),
    processElems t p i xq es found
      = processElems t p i xq (es.filter (fun e => !e.detailsFail)) found := by
  intro es
  induction es with
  | nil => intro found; rfl
  | cons e rest ih =>
    intro found
    by_cases hd : e.detailsFail = true
    · rw [processElems]
      simp only [if_pos hd, List.filter_cons, hd, Bool.not_true, Bool.false_eq_true,
        if_false]
      exact ih found
    · rw [processElems]
      simp only [if_neg hd, List.filter_cons, eq_false_of_ne_true hd, Bool.not_false,
        if_true]
      rw [processElems]
      simp only [if_neg hd]
      by_cases ha : found.any (fun m => m.element_xpath == e.xpathRes) = true
      · simp only [if_pos ha]
        exact ih found
      · simp only [if_neg ha]
        exact ih _

theorem searchLoop_clean (t : String) (p : List String)
    (find : Nat → String → Except Unit (List DomElem)) :
    ∀ (l : List (Nat × String)) (found : List MatchRecord),
    searchLoop t p find l found
      = searchLoop t p
          (fun i q => match find i q with
            | .error _ => .ok []
            | .ok es => .ok (es.filter (fun e => !e.detailsFail))) l found := by
  intro l
  induction l with
  | nil => intro found; rfl
  | cons iq rest ih =>
    intro found
    obtain ⟨i, xq⟩ := iq
    rw [searchLoop, searchLoop]
    cases hfind : find i xq with
    | error u =>
      simp only [hfind]
      rw [ih found]
      rfl
    | ok es =>
      simp only [hfind]
      rw [processElems_filter, ih]

/-- C7: all six structural strategies are attempted in their fixed order
every call, and failures are isolated: a run with an arbitrary failure
oracle returns exactly what the run returns in which every raising strategy
contributes no elements and every element whose reads raise is dropped — a
failing strategy or element is skipped, never aborts the remaining
strategies, and never makes the pass itself fail. -/
theorem C7_strategy_isolation (t : String) (p : List String)
    (find : Nat → String → Except Unit (List DomElem)) :
    (searchStrategies t).length = 6 ∧
      searchInCurrentContext t p find
        = searchInCurrentContext t p
            (fun i q => match find i q with
              | .error _ => .ok []
              | .ok es => .ok (es.filter (fun e => !e.detailsFail))) :=
  ⟨by simp [searchStrategies], searchLoop_clean t p find (searchStrategies t).enum []⟩

/-!
## Report and entry-point properties
-/

/-- C8: scanning a document with no frame-like elements yields an empty
inventory, and the report generated from it has all three summary counts
equal to zero. -/
theorem C8_empty_document (pv : String) (c : Nat) (st : Option String)
    (res : SearchResults) :
    (discoverDoc ⟨[], [], pv⟩ ["main_page"] 0 c).1 = [] ∧
      (generateReport (discoverDoc ⟨[], [], pv⟩ ["main_page"] 0 c).1 st res).scan_summary
        = ⟨0, 0, 0⟩ := by
  have h : (discoverDoc ⟨[], [], pv⟩ ["main_page"] 0 c).1 = [] := by
    rw [discoverDoc]
    simp [discoverFrames]
  exact ⟨h, by rw [h]; simp [generateReport]⟩

/-- C9: in every generated report, the accessible count plus the
inaccessible count equals the total count — the two filters partition the
inventory by the boolean `is_accessible`. -/
theorem C9_summary_partition (l : List IframeInfo) (st : Option String)
    (res : SearchResults) :
    (generateReport l st res).scan_summary.accessible_iframes
        + (generateReport l st res).scan_summary.inaccessible_iframes
      = (generateReport l st res).scan_summary.total_iframes_found := by
  simp only [generateReport]
  induction l with
  | nil => rfl
  | cons x xs ih =>
    by_cases hx : x.is_accessible = true <;>
      simp only [List.filter_cons, hx, Bool.not_true, Bool.not_false,
        eq_false_of_ne_true, if_true, if_false, List.length_cons,
        Bool.false_eq_true] <;>
      omega

/-- C10: the DOM-only fallback lowercases both the search text and the
compared document text, so two search strings with the same lowercasing —
in particular any two case-variants of the same string — produce the same
list of frame XPaths on every parsed document. -/
theorem C10_case_insensitive (docChildren : List BNode) (s1 s2 : String)
    (pg : String → Except Unit String) (h : pyLower s1 = pyLower s2) :
    find_iframe_xpaths_in_dom docChildren s1 pg
      = find_iframe_xpaths_in_dom docChildren s2 pg := by
  simp only [find_iframe_xpaths_in_dom, h]

/-- Witness for `C10_case_insensitive`: `wms` and `WMS` on a document with
one iframe whose `title` attribute holds `WMS Report`. -/
theorem C10_case_insensitive_witness :
    find_iframe_xpaths_in_dom [BNode.mk "iframe" [("title", "WMS Report")] []] "wms"
        (fun _ => Except.ok "")
      = find_iframe_xpaths_in_dom [BNode.mk "iframe" [("title", "WMS Report")] []] "WMS"
        (fun _ => Except.ok "") :=
  C10_case_insensitive _ "wms" "WMS" _ (by decide)

end IframeScanner
